import Mathlib

set_option maxRecDepth 4000

/-!
Shallow embedding of the melita-ai-algorithm-visualizer front-end.

The embedding covers:
- the analysis payload record (src/types.ts, SimulationResponse);
- the service layer (src/services/geminiService.ts): cleanJsonString,
  getFallbackResponse and analyzeCodeWithGemini, with the external model call
  and the JSON-engine error text supplied as parameters;
- the request orchestrator (src/App.tsx): handleVisualize, handleStop and the
  offline listener, as a step function on an explicit application state driven
  by events (the single-threaded event-loop semantics of the UI runtime);
- the diagram export and zoom logic (src/components, MermaidDiagram).

JavaScript string primitives used by the source (replace-all with an empty
replacement, trim, indexOf, lastIndexOf, substring, includes, toLowerCase)
are modelled over lists of characters with the same observable behaviour.
-/

/-- The analysis payload produced by the service layer (src/types.ts). -/
structure SimulationResponse where
  explanation : String
  mermaidGraph : String
  timeComplexity : String
  spaceComplexity : String
  optimizationTip : String
  deriving DecidableEq

/-- Model of the JavaScript character-level lowercase conversion used by
String.prototype.toLowerCase in getFallbackResponse. -/
def lowerS (s : String) : String :=
  String.mk (s.toList.map Char.toLower)

/-- Substring containment over character lists, the model of
String.prototype.includes. -/
def containsSubList (pat : List Char) : List Char → Bool
  | [] => pat.isEmpty
  | c :: cs => pat.isPrefixOf (c :: cs) || containsSubList pat cs

/-- String.prototype.includes, modelled over the character lists of the two
strings. -/
def strIncludes (s pat : String) : Bool :=
  containsSubList pat.toList s.toList

/-- One pass of global replacement of a pattern by the empty string, with fuel;
the model of String.prototype.replace with a global literal pattern and an
empty replacement, as used in cleanJsonString. -/
def replaceAllAux (pat : List Char) : Nat → List Char → List Char
  | 0, l => l
  | _ + 1, [] => []
  | n + 1, c :: cs =>
    if !pat.isEmpty && pat.isPrefixOf (c :: cs) then
      replaceAllAux pat n (List.drop pat.length (c :: cs))
    else
      c :: replaceAllAux pat n cs

/-- Remove every occurrence of a literal pattern from a character list. -/
def stripAll (pat : String) (l : List Char) : List Char :=
  replaceAllAux pat.toList (l.length + 1) l

/-- Whitespace trim on both ends, the model of String.prototype.trim. -/
def trimL (l : List Char) : List Char :=
  ((l.dropWhile Char.isWhitespace).reverse.dropWhile Char.isWhitespace).reverse

/-- Index of the first occurrence of a character, the model of
String.prototype.indexOf for a single-character needle (none models -1). -/
def idxOfChar (c : Char) : List Char → Option Nat
  | [] => none
  | a :: as => if a = c then some 0 else (idxOfChar c as).map (· + 1)

/-- Index of the last occurrence of a character, the model of
String.prototype.lastIndexOf for a single-character needle. -/
def lastIdxOfChar (c : Char) (l : List Char) : Option Nat :=
  (idxOfChar c l.reverse).map (fun k => l.length - 1 - k)

/-- String.prototype.substring: indices are swapped when given out of order,
and the extracted range is clamped to the list. -/
def jsSubstring (l : List Char) (a b : Nat) : List Char :=
  (l.drop (min a b)).take (max a b - min a b)

/-- cleanJsonString (src/services/geminiService.ts): strip the markdown fence
markers, trim, and when both an opening and a closing brace occur keep the
substring from the first opening brace to the last closing brace. -/
def cleanJsonString (str : String) : String :=
  let cleaned := trimL (stripAll "```" (stripAll "```json" str.toList))
  match idxOfChar '{' cleaned, lastIdxOfChar '}' cleaned with
  | some i, some j => String.mk (jsSubstring cleaned i (j + 1))
  | _, _ => String.mk cleaned

/-- CASE 1 of getFallbackResponse: the quota-exceeded fallback payload,
returned on rate limiting (HTTP 429 and quota exhaustion). -/
def quotaFallback : SimulationResponse where
  mermaidGraph := "graph TD;\n        Error[⛔ QUOTA EXCEEDED]:::error\n        Desc[API Limit Reached]:::base\n        Wait[Please wait a moment...]:::skip\n        Error --> Desc --> Wait\n        classDef error fill:#ef4444,stroke:#7f1d1d,stroke-width:2px,color:#fff\n        classDef base fill:#1f2937,stroke:#374151,color:#fff\n        classDef skip fill:#374151,stroke:#4b5563,stroke-dasharray: 5 5,color:#9ca3af"
  explanation := "**API Limit Reached:** We have hit the daily/per-minute limit for the Google Gemini API. There is no issue with your code; the service is currently unresponsive. Please wait a moment and try again."
  timeComplexity := "Unknown"
  spaceComplexity := "Unknown"
  optimizationTip := "Try again later."

/-- CASE 2 of getFallbackResponse: the malformed-response fallback payload,
returned when the model reply could not be parsed as JSON. -/
def parseErrorFallback : SimulationResponse where
  mermaidGraph := "graph TD;\n        Error[⚠️ PARSING ERROR]:::error\n        Desc[AI Response Malformed]:::base\n        Retry[Try Simplifying Code]:::result\n        Error --> Desc --> Retry\n        classDef error fill:#f59e0b,stroke:#b45309,color:#000\n        classDef base fill:#1f2937,stroke:#374151,color:#fff\n        classDef result fill:#d1fae5,stroke:#059669,color:#000"
  explanation := "**Data Processing Error:** The Artificial Intelligence encountered a technical error during response generation."
  timeComplexity := "?"
  spaceComplexity := "?"
  optimizationTip := "Simplify the code snippet."

/-- CASE 3 of getFallbackResponse: the generic fallback payload, parameterised
by the lowercased error text that the source splices into the explanation. -/
def genericFallback (msg : String) : SimulationResponse where
  mermaidGraph := "graph TD;\n      Start[\"Start\"]:::base\n      Note[\"⚠️ Complex / Large Logic\"]:::skip\n      Summary[\"(... Visualization skipped for performance ...)\"]:::skip\n      End[\"Result\"]:::result\n      Start --> Note --> Summary --> End\n      classDef base fill:#d1fae5,stroke:#059669,stroke-width:2px,color:#000\n      classDef skip fill:#f3f4f6,stroke:#9ca3af,stroke-width:2px,stroke-dasharray: 5 5,color:#000\n      classDef result fill:#fef3c7,stroke:#d97706,stroke-width:2px,color:#000"
  explanation := "**Visualization Threshold Reached:** The system is currently under heavy load or the code is excessively complex. Switched to summary display mode.\n\nError Details: " ++ msg
  timeComplexity := "O(High)"
  spaceComplexity := "O(High)"
  optimizationTip := "Try creating smaller functions."

/-- getFallbackResponse (src/services/geminiService.ts): classify the error
text, lowercased, by substring inspection and return the matching canned
payload. -/
def getFallbackResponse (error : String) : SimulationResponse :=
  let msg := lowerS error
  if strIncludes msg "429" || strIncludes msg "quota" || strIncludes msg "exhausted" then
    quotaFallback
  else if strIncludes msg "json" || strIncludes msg "syntax" then
    parseErrorFallback
  else
    genericFallback msg

/-- JSON values, the result type of the platform JSON.parse model. Numerals
are restricted to integers; a reply using fractional or exponent notation is
treated as outside the modelled grammar. -/
inductive Json where
  | null
  | bool (b : Bool)
  | num (n : Int)
  | str (s : String)
  | arr (elems : List Json)
  | obj (fields : List (String × Json))

/-- Skip leading JSON whitespace. -/
def trimFront : List Char → List Char
  | [] => []
  | c :: cs => if c.isWhitespace then trimFront cs else c :: cs

/-- The body of a JSON string literal after its opening quote: returns the
decoded characters and the remainder after the closing quote. Escape
sequences are restricted to the single-character ones. -/
def parseStringBody : Nat → List Char → Option (List Char × List Char)
  | 0, _ => none
  | _ + 1, [] => none
  | n + 1, c :: cs =>
    if c = '"' then some ([], cs)
    else if c = '\\' then
      match cs with
      | [] => none
      | e :: cs2 =>
        let dec : Option Char :=
          if e = '"' then some '"'
          else if e = '\\' then some '\\'
          else if e = '/' then some '/'
          else if e = 'n' then some '\n'
          else if e = 't' then some '\t'
          else if e = 'r' then some '\r'
          else none
        match dec with
        | none => none
        | some d =>
          match parseStringBody n cs2 with
          | some (body, rest) => some (d :: body, rest)
          | none => none
    else
      match parseStringBody n cs with
      | some (body, rest) => some (c :: body, rest)
      | none => none

/-- Take a maximal run of decimal digits from the front of the input,
returning their values and the remainder. -/
def takeDigits : List Char → (List Nat × List Char)
  | [] => ([], [])
  | c :: cs =>
    if c.isDigit then
      let p := takeDigits cs
      ((c.toNat - 48) :: p.1, p.2)
    else
      ([], c :: cs)

/-- Decimal value of a digit-value list. -/
def digitsToNat (ds : List Nat) : Nat :=
  ds.foldl (fun a d => a * 10 + d) 0

/-- True when a numeral continues with fractional or exponent notation,
which the model does not cover. -/
def numContinues : List Char → Bool
  | [] => false
  | c :: _ => c = '.' || c = 'e' || c = 'E'

/-- Parser modes: a single value, the members of an object after its opening
brace, or the elements of an array after its opening bracket. -/
inductive PMode where
  | value
  | members
  | elems

/-- Intermediate parser results for the three modes. -/
inductive PRes where
  | v (j : Json)
  | ms (l : List (String × Json))
  | es (l : List Json)

/-- Fuel-indexed recursive-descent JSON parser over character lists; the model
of the platform JSON.parse (restricted grammar documented on Json). -/
def parseF : Nat → PMode → List Char → Option (PRes × List Char)
  | 0, _, _ => none
  | n + 1, PMode.value, input =>
    match trimFront input with
    | [] => none
    | c :: cs =>
      if c = '{' then
        match trimFront cs with
        | '}' :: rest => some (PRes.v (Json.obj []), rest)
        | _ =>
          match parseF n PMode.members (trimFront cs) with
          | some (PRes.ms l, rest) => some (PRes.v (Json.obj l), rest)
          | _ => none
      else if c = '[' then
        match trimFront cs with
        | ']' :: rest => some (PRes.v (Json.arr []), rest)
        | _ =>
          match parseF n PMode.elems (trimFront cs) with
          | some (PRes.es l, rest) => some (PRes.v (Json.arr l), rest)
          | _ => none
      else if c = '"' then
        match parseStringBody (cs.length + 1) cs with
        | some (body, rest) => some (PRes.v (Json.str (String.mk body)), rest)
        | none => none
      else if c = 't' then
        match cs with
        | 'r' :: 'u' :: 'e' :: rest => some (PRes.v (Json.bool true), rest)
        | _ => none
      else if c = 'f' then
        match cs with
        | 'a' :: 'l' :: 's' :: 'e' :: rest => some (PRes.v (Json.bool false), rest)
        | _ => none
      else if c = 'n' then
        match cs with
        | 'u' :: 'l' :: 'l' :: rest => some (PRes.v Json.null, rest)
        | _ => none
      else if c = '-' then
        match takeDigits cs with
        | ([], _) => none
        | (ds, rest) =>
          if numContinues rest then none
          else some (PRes.v (Json.num (-(Int.ofNat (digitsToNat ds)))), rest)
      else if c.isDigit then
        match takeDigits (c :: cs) with
        | ([], _) => none
        | (ds, rest) =>
          if numContinues rest then none
          else some (PRes.v (Json.num (Int.ofNat (digitsToNat ds))), rest)
      else none
  | n + 1, PMode.members, input =>
    match trimFront input with
    | '"' :: cs =>
      match parseStringBody (cs.length + 1) cs with
      | some (key, rest1) =>
        match trimFront rest1 with
        | ':' :: rest2 =>
          match parseF n PMode.value rest2 with
          | some (PRes.v j, rest3) =>
            match trimFront rest3 with
            | ',' :: rest4 =>
              match parseF n PMode.members rest4 with
              | some (PRes.ms l, rest5) => some (PRes.ms ((String.mk key, j) :: l), rest5)
              | _ => none
            | '}' :: rest4 => some (PRes.ms [(String.mk key, j)], rest4)
            | _ => none
          | _ => none
        | _ => none
      | none => none
    | _ => none
  | n + 1, PMode.elems, input =>
    match parseF n PMode.value input with
    | some (PRes.v j, rest) =>
      match trimFront rest with
      | ',' :: rest2 =>
        match parseF n PMode.elems rest2 with
        | some (PRes.es l, rest3) => some (PRes.es (j :: l), rest3)
        | _ => none
      | ']' :: rest2 => some (PRes.es [j], rest2)
      | _ => none
    | _ => none

/-- JSON.parse model: parse one value and require only whitespace after it. -/
def parseJson (s : String) : Option Json :=
  match parseF (s.length + 1) PMode.value s.toList with
  | some (PRes.v j, rest) => if (trimFront rest).isEmpty then some j else none
  | _ => none

/-- The value actually produced by analyzeCodeWithGemini: either the object
returned by JSON.parse (the source returns it under an unchecked cast, so its
fields are whatever the reply contained) or a synthesized fallback payload. -/
inductive AnalyzeValue where
  | parsed (j : Json)
  | fallback (r : SimulationResponse)

/-- Last-occurrence field lookup on a JSON object, the model of JavaScript
property access on an object built by JSON.parse (later duplicate keys win). -/
def jsonLookup (fields : List (String × Json)) (k : String) : Option Json :=
  fields.foldl (fun acc p => if p.1 = k then some p.2 else acc) none

/-- Whether the produced value carries all five payload fields: a fallback
always does; a parsed reply does exactly when the reply object contains the
five keys. -/
def hasAllFields : AnalyzeValue → Bool
  | AnalyzeValue.fallback _ => true
  | AnalyzeValue.parsed (Json.obj fs) =>
    (jsonLookup fs "explanation").isSome && (jsonLookup fs "mermaidGraph").isSome &&
    (jsonLookup fs "timeComplexity").isSome && (jsonLookup fs "spaceComplexity").isSome &&
    (jsonLookup fs "optimizationTip").isSome
  | AnalyzeValue.parsed _ => false

/-- All five fields of a payload record are non-empty text. -/
def fieldsPopulated (r : SimulationResponse) : Prop :=
  r.explanation ≠ "" ∧ r.mermaidGraph ≠ "" ∧ r.timeComplexity ≠ "" ∧
  r.spaceComplexity ≠ "" ∧ r.optimizationTip ≠ ""

/-- analyzeCodeWithGemini (src/services/geminiService.ts). The source keeps
the API key as an in-file configuration constant and aborts before any request
when it is empty; the key is therefore a parameter here. The external model
call is a parameter too: upstream is either the reply text or the message of
the exception the call raised. When JSON.parse fails the source throws, inside
its own try, a new error whose message is the fixed prefix followed by the
stringified engine exception; engineDetail models that engine-supplied text.
Every failure inside the try is converted by the outer catch into a fallback
payload. -/
def analyzeCodeWithGemini (apiKey : String) (upstream : Except String String)
    (engineDetail : String) : Except String AnalyzeValue :=
  if apiKey = "" then Except.error "API Key not found."
  else
    match upstream with
    | Except.error e => Except.ok (AnalyzeValue.fallback (getFallbackResponse e))
    | Except.ok text =>
      match parseJson (cleanJsonString text) with
      | some j => Except.ok (AnalyzeValue.parsed j)
      | none =>
        Except.ok (AnalyzeValue.fallback
          (getFallbackResponse ("JSON Parse Error: " ++ engineDetail)))

/-- The cancellation reasons the orchestrator passes to AbortController.abort;
the supersede abort in handleVisualize passes no reason (modelled as none). -/
inductive AbortReason where
  | stop
  | offline
  | timeout
  deriving DecidableEq

/-- One analysis request issued by handleVisualize: its AbortController state
(aborted flag and reason), whether its awaited race has already resumed the
continuation (done), and the error value captured by the closure of the render
that created the handler (read again by the finally block). -/
structure Req where
  aborted : Bool
  reason : Option AbortReason
  done : Bool
  capturedError : Option String
  deriving DecidableEq

/-- The orchestrator state of App.tsx: the three state hooks, the current
AbortController reference, and the requests allocated so far (by id). -/
structure AppState where
  simulationData : Option AnalyzeValue
  isAnalyzing : Bool
  error : Option String
  current : Option Nat
  nextId : Nat
  reqs : Nat → Option Req

/-- Initial orchestrator state. -/
def initState : AppState where
  simulationData := none
  isAnalyzing := false
  error := none
  current := none
  nextId := 0
  reqs := fun _ => none

/-- AbortController.abort: the first abort wins; a later abort of an already
aborted controller changes nothing, including the recorded reason. -/
def abortReq (r : Option AbortReason) (q : Req) : Req :=
  if q.aborted then q else { q with aborted := true, reason := r }

/-- Abort the request with the given id, when allocated. -/
def abortAt (s : AppState) (n : Nat) (r : Option AbortReason) : AppState :=
  { s with reqs := fun m => if m = n then (s.reqs m).map (abortReq r) else s.reqs m }

/-- Mark the request with the given id as resumed. -/
def markDone (s : AppState) (n : Nat) : AppState :=
  { s with reqs := fun m => if m = n then (s.reqs m).map (fun q => { q with done := true }) else s.reqs m }

/-- JavaScript truthiness of the nullable error string. -/
def jsTruthy : Option String → Bool
  | none => false
  | some s => s ≠ ""

/-- The finally block of handleVisualize: it reads the live aborted flag of
the controller of this request and the closure-captured error value, and
clears the loading flag only when the request is unaborted or that captured
value is truthy. -/
def finallyStep (s : AppState) (n : Nat) (captured : Option String) : AppState :=
  { s with isAnalyzing :=
      if !(((s.reqs n).map Req.aborted).getD false) || jsTruthy captured then false
      else s.isAnalyzing }

/-- The outcome with which the race of the analysis promise against the
timeout promise settles: a value, or a rejection message (the timer rejects
with the fixed TIMEOUT_ERROR message). -/
inductive Outcome where
  | success (v : AnalyzeValue)
  | failure (msg : String)

/-- Connectivity pre-check message of handleVisualize. -/
def noNetMsg : String :=
  "🌐 No internet connection detected. Please connect to the network and try again."

/-- Message set by the offline listener. -/
def offlineHandlerMsg : String :=
  "⚠️ Internet connection lost! Please check your network connection."

/-- Message set by the catch branch for an offline-aborted request. -/
def offlineCatchMsg : String := "⚠️ Network connection lost."

/-- Message surfaced when the timeout rejection is caught. -/
def timeoutMsg : String :=
  "⏳ The operation took too long (20s). Your code may be too complex or the server is unresponsive."

/-- The message the catch branch of handleVisualize surfaces for the
rejection of a live (unaborted) request: the timeout message for the timer
rejection, otherwise the rejection message itself. -/
def surfacedMessage (msg : String) : String :=
  if msg = "TIMEOUT_ERROR" then timeoutMsg else msg

/-- The failure taxonomy of the orchestrator: connectivity (pre-check and
offline), timeout, and the unexpected catch-all. -/
inductive ErrCategory where
  | connectivity
  | timeout
  | unexpected
  deriving DecidableEq

/-- The category the catch branch of handleVisualize assigns to the rejection
message of a live request. -/
def errCategory (msg : String) : ErrCategory :=
  if msg = "TIMEOUT_ERROR" then ErrCategory.timeout else ErrCategory.unexpected

/-- The success path of the continuation: commit the result only when the
controller of this request is not aborted, then run the finally block. -/
def settleSuccess (s : AppState) (n : Nat) (q : Req) (v : AnalyzeValue) : AppState :=
  let s0 := markDone s n
  let s1 := if q.aborted then s0 else { s0 with simulationData := some v }
  finallyStep s1 n q.capturedError

/-- The catch path of the continuation: dispatch on the abort reason and the
rejection message exactly in source order, then run the finally block. -/
def settleFailure (s : AppState) (n : Nat) (q : Req) (msg : String) : AppState :=
  let s0 := markDone s n
  if q.aborted ∧ q.reason = some AbortReason.stop then
    finallyStep s0 n q.capturedError
  else if q.aborted ∧ q.reason = some AbortReason.offline then
    finallyStep { s0 with error := some offlineCatchMsg } n q.capturedError
  else if msg = "TIMEOUT_ERROR" then
    finallyStep (abortAt { s0 with error := some timeoutMsg } n (some AbortReason.timeout))
      n q.capturedError
  else
    finallyStep { s0 with error := some msg } n q.capturedError

/-- The continuation of handleVisualize after the awaited race settles for
request n: the success path, the catch dispatch on the abort reason and the
message, and the finally block, exactly in source order. A request whose
continuation already ran is never resumed again (a promise settles once). -/
def settleStep (s : AppState) (n : Nat) (o : Outcome) : AppState :=
  match s.reqs n with
  | none => s
  | some q =>
    if q.done then s
    else
      match o with
      | Outcome.success v => settleSuccess s n q v
      | Outcome.failure msg => settleFailure s n q msg

/-- Events of the single-threaded UI event loop: a click on Visualize (with
the connectivity pre-check result), a click on Stop, the platform offline
notification, and the resumption of the awaited race of a request. -/
inductive Event where
  | visualize (online : Bool)
  | stop
  | offline
  | settle (n : Nat) (o : Outcome)

/-- Abort the controller the reference currently points to, when any. -/
def abortCurrent (s : AppState) (r : Option AbortReason) : AppState :=
  match s.current with
  | some m => abortAt s m r
  | none => s

/-- The rest of the synchronous prefix of handleVisualize after the previous
controller has been aborted: allocate a fresh controller, point the reference
at it, raise the loading flag and clear the error and result state; the
closure of the new continuation captures the error value read at invocation
time (the state hooks of the creating render). -/
def beginRequest (s1 : AppState) (captured : Option String) : AppState :=
  { s1 with
    simulationData := none
    isAnalyzing := true
    error := none
    current := some s1.nextId
    nextId := s1.nextId + 1
    reqs := fun m =>
      if m = s1.nextId then some ⟨false, none, false, captured⟩ else s1.reqs m }

/-- One event-loop step of the orchestrator (handleVisualize synchronous
prefix, handleStop, the offline listener, and the await continuation). -/
def step (s : AppState) : Event → AppState
  | Event.visualize online =>
    if !online then { s with error := some noNetMsg }
    else beginRequest (abortCurrent s none) s.error
  | Event.stop =>
    { abortCurrent s (some AbortReason.stop) with current := none, isAnalyzing := false }
  | Event.offline =>
    if s.isAnalyzing then
      match s.current with
      | some m =>
        { abortAt s m (some AbortReason.offline) with
          isAnalyzing := false, error := some offlineHandlerMsg }
      | none => s
    else s
  | Event.settle n o => settleStep s n o

/-- Run a list of events from a state. -/
def run (s : AppState) (evs : List Event) : AppState :=
  evs.foldl step s

/-- How the attempt to rasterize the serialized drawing on the canvas ends:
the PNG data URL is produced, or toDataURL throws the content-origin
(tainted canvas) security error. -/
inductive RasterResult where
  | ok
  | taintedError

/-- How the synthetic image built from the serialized drawing behaves:
it loads (and rasterization is then attempted) or its load fails. -/
inductive ImgLoad where
  | loads (r : RasterResult)
  | failsToLoad

/-- Observable outcome of one run of handleDownload: the canvas pixel
dimensions when a canvas was created, and how many raster (PNG) and vector
(SVG) downloads were triggered. -/
structure ExportOutcome where
  canvas : Option (ℚ × ℚ)
  pngDownloads : Nat
  svgDownloads : Nat
  deriving DecidableEq

/-- handleDownload (MermaidDiagram in src/components): when no drawing is
present nothing is downloaded; otherwise the measured dimensions (with the
800 by 600 defaults when a measure is zero) are scaled by the fixed factor 3
into the canvas, a successful rasterization triggers exactly one PNG
download, and a tainted-canvas failure or an image load failure triggers
exactly one SVG fallback download and no PNG download. -/
def handleDownload (hasSvg : Bool) (bboxW bboxH : ℚ) (load : ImgLoad) : ExportOutcome :=
  if !hasSvg then ⟨none, 0, 0⟩
  else
    let width := if bboxW = 0 then 800 else bboxW
    let height := if bboxH = 0 then 600 else bboxH
    match load with
    | ImgLoad.failsToLoad => ⟨none, 0, 1⟩
    | ImgLoad.loads r =>
      let scale : ℚ := 3
      let c := (width * scale, height * scale)
      match r with
      | RasterResult.ok => ⟨some c, 1, 0⟩
      | RasterResult.taintedError => ⟨some c, 0, 1⟩

/-- User and lifecycle operations that change the zoom level of the diagram
view (MermaidDiagram): the three buttons and the outcome of rendering a new
chart (the zoom reset happens only when rendering succeeds). -/
inductive ZoomEvent where
  | zoomIn
  | zoomOut
  | reset
  | renderOk
  | renderFail

/-- One zoom-state transition of MermaidDiagram. -/
def zoomStep (z : ℚ) : ZoomEvent → ℚ
  | ZoomEvent.zoomIn => z + 1 / 10
  | ZoomEvent.zoomOut => max (1 / 2) (z - 1 / 10)
  | ZoomEvent.reset => 1
  | ZoomEvent.renderOk => 1
  | ZoomEvent.renderFail => z

/-- Zoom level after a sequence of operations from the initial level 1. -/
def zoomRun (es : List ZoomEvent) : ℚ :=
  es.foldl zoomStep 1

/-- Allocation discipline of the orchestrator state: ids at or above the
allocation counter are unused. -/
def WF (s : AppState) : Prop :=
  ∀ n, s.nextId ≤ n → s.reqs n = none

/-- Only the current handle is live: every allocated, unaborted request is
the one the controller reference points to. -/
def OnlyCurrentLive (s : AppState) : Prop :=
  ∀ n q, s.reqs n = some q → q.aborted = false → s.current = some n

/-! ## Lemmas about the JavaScript string models -/

theorem containsSubList_nil_pat (r : List Char) : containsSubList [] r = true := by
  cases r <;> simp [containsSubList, List.isPrefixOf]

theorem isPrefixOf_append_right (p l r : List Char) (h : p.isPrefixOf l = true) :
    p.isPrefixOf (l ++ r) = true := by
  rw [List.isPrefixOf_iff_prefix] at h ⊢
  exact h.trans (l.prefix_append r)

theorem containsSubList_append_left (p l r : List Char)
    (h : containsSubList p l = true) : containsSubList p (l ++ r) = true := by
  induction l with
  | nil =>
    simp [containsSubList] at h
    subst h
    exact containsSubList_nil_pat r
  | cons c cs ih =>
    simp only [containsSubList, Bool.or_eq_true] at h
    rcases h with h | h
    · simp only [List.cons_append, containsSubList, Bool.or_eq_true]
      exact Or.inl (isPrefixOf_append_right p (c :: cs) r h)
    · simp only [List.cons_append, containsSubList, Bool.or_eq_true]
      exact Or.inr (ih h)

theorem strIncludes_lowerS_append (a b pat : String)
    (h : strIncludes (lowerS a) pat = true) :
    strIncludes (lowerS (a ++ b)) pat = true := by
  have hd : (a ++ b).data = a.data ++ b.data := String.data_append a b
  show containsSubList pat.toList ((a ++ b).data.map Char.toLower) = true
  rw [hd, List.map_append]
  exact containsSubList_append_left _ _ _ h

/-! ## Lemmas about getFallbackResponse -/

theorem getFallback_quota (err : String)
    (h : (strIncludes (lowerS err) "429" || strIncludes (lowerS err) "quota" ||
          strIncludes (lowerS err) "exhausted") = true) :
    getFallbackResponse err = quotaFallback := by
  simp only [getFallbackResponse]
  rw [h]
  rfl

theorem getFallback_parse (err : String)
    (hq : (strIncludes (lowerS err) "429" || strIncludes (lowerS err) "quota" ||
          strIncludes (lowerS err) "exhausted") = false)
    (hj : (strIncludes (lowerS err) "json" || strIncludes (lowerS err) "syntax") = true) :
    getFallbackResponse err = parseErrorFallback := by
  simp only [getFallbackResponse]
  rw [hq, hj]
  rfl

theorem genericFallback_explanation_ne (m : String) :
    (genericFallback m).explanation ≠ "" := by
  intro h
  have h2 := congrArg String.data h
  rw [show (genericFallback m).explanation =
        "**Visualization Threshold Reached:** The system is currently under heavy load or the code is excessively complex. Switched to summary display mode.\n\nError Details: " ++ m
      from rfl] at h2
  rw [String.data_append] at h2
  exact absurd (List.append_eq_nil.mp h2).1 (by decide)

theorem getFallback_fieldsPopulated (m : String) :
    fieldsPopulated (getFallbackResponse m) := by
  simp only [getFallbackResponse]
  by_cases h1 : (strIncludes (lowerS m) "429" || strIncludes (lowerS m) "quota" ||
      strIncludes (lowerS m) "exhausted") = true
  · rw [h1, if_pos rfl]
    exact ⟨by decide, by decide, by decide, by decide, by decide⟩
  · rw [Bool.not_eq_true] at h1
    rw [h1, if_neg (by decide)]
    by_cases h2 : (strIncludes (lowerS m) "json" || strIncludes (lowerS m) "syntax") = true
    · rw [h2, if_pos rfl]
      exact ⟨by decide, by decide, by decide, by decide, by decide⟩
    · rw [Bool.not_eq_true] at h2
      rw [h2, if_neg (by decide)]
      refine ⟨genericFallback_explanation_ne _, ?_, ?_, ?_, ?_⟩ <;>
        · simp only [genericFallback]
          decide

/-! ## Lemmas about the orchestrator state machine -/

theorem abortReq_aborted (r : Option AbortReason) (q : Req) :
    (abortReq r q).aborted = true := by
  unfold abortReq
  by_cases h : q.aborted = true
  · rw [if_pos h]; exact h
  · rw [if_neg h]

theorem abortReq_of_aborted (r : Option AbortReason) (q : Req) (h : q.aborted = true) :
    abortReq r q = q := by
  unfold abortReq
  rw [if_pos h]

theorem abortReq_done (r : Option AbortReason) (q : Req) :
    (abortReq r q).done = q.done := by
  unfold abortReq
  by_cases h : q.aborted = true
  · rw [if_pos h]
  · rw [if_neg h]

theorem abortReq_of_not_aborted (r : Option AbortReason) (q : Req) (h : q.aborted = false) :
    abortReq r q = { q with aborted := true, reason := r } := by
  unfold abortReq
  rw [if_neg (by rw [h]; exact Bool.false_ne_true)]

theorem finallyStep_reqs (s : AppState) (n : Nat) (c : Option String) :
    (finallyStep s n c).reqs = s.reqs := rfl

theorem finallyStep_error (s : AppState) (n : Nat) (c : Option String) :
    (finallyStep s n c).error = s.error := rfl

theorem abortAt_reqs (s : AppState) (k : Nat) (r : Option AbortReason) (m : Nat) :
    (abortAt s k r).reqs m = if m = k then (s.reqs m).map (abortReq r) else s.reqs m := rfl

theorem markDone_reqs (s : AppState) (n m : Nat) :
    (markDone s n).reqs m =
      if m = n then (s.reqs m).map (fun q => { q with done := true }) else s.reqs m := rfl

theorem settleSuccess_current (s : AppState) (n : Nat) (q : Req) (v : AnalyzeValue) :
    (settleSuccess s n q v).current = s.current := by
  simp only [settleSuccess]
  split_ifs <;> rfl

theorem settleSuccess_nextId (s : AppState) (n : Nat) (q : Req) (v : AnalyzeValue) :
    (settleSuccess s n q v).nextId = s.nextId := by
  simp only [settleSuccess]
  split_ifs <;> rfl

theorem settleSuccess_error (s : AppState) (n : Nat) (q : Req) (v : AnalyzeValue) :
    (settleSuccess s n q v).error = s.error := by
  simp only [settleSuccess]
  split_ifs <;> rfl

theorem settleSuccess_data_of_aborted (s : AppState) (n : Nat) (q : Req) (v : AnalyzeValue)
    (ha : q.aborted = true) :
    (settleSuccess s n q v).simulationData = s.simulationData := by
  simp only [settleSuccess]
  rw [if_pos ha]
  rfl

theorem settleSuccess_data_of_live (s : AppState) (n : Nat) (q : Req) (v : AnalyzeValue)
    (ha : q.aborted = false) :
    (settleSuccess s n q v).simulationData = some v := by
  simp only [settleSuccess]
  rw [if_neg (by rw [ha]; exact Bool.false_ne_true)]
  rfl

theorem settleSuccess_reqs (s : AppState) (n : Nat) (q : Req) (v : AnalyzeValue) (m : Nat) :
    (settleSuccess s n q v).reqs m = (markDone s n).reqs m := by
  simp only [settleSuccess]
  split_ifs <;> rfl

theorem settleFailure_current (s : AppState) (n : Nat) (q : Req) (msg : String) :
    (settleFailure s n q msg).current = s.current := by
  simp only [settleFailure]
  split_ifs <;> rfl

theorem settleFailure_nextId (s : AppState) (n : Nat) (q : Req) (msg : String) :
    (settleFailure s n q msg).nextId = s.nextId := by
  simp only [settleFailure]
  split_ifs <;> rfl

theorem settleFailure_simulationData (s : AppState) (n : Nat) (q : Req) (msg : String) :
    (settleFailure s n q msg).simulationData = s.simulationData := by
  simp only [settleFailure]
  split_ifs <;> rfl

theorem settleFailure_error_stopped (s : AppState) (n : Nat) (q : Req) (msg : String)
    (ha : q.aborted = true) (hr : q.reason = some AbortReason.stop) :
    (settleFailure s n q msg).error = s.error := by
  simp only [settleFailure]
  rw [if_pos ⟨ha, hr⟩]
  rfl

theorem settleFailure_live_error (s : AppState) (n : Nat) (q : Req) (msg : String)
    (ha : q.aborted = false) :
    (settleFailure s n q msg).error = some (surfacedMessage msg) := by
  simp only [settleFailure]
  rw [if_neg (by rw [ha]; rintro h; exact Bool.false_ne_true h.1)]
  rw [if_neg (by rw [ha]; rintro h; exact Bool.false_ne_true h.1)]
  by_cases hm : msg = "TIMEOUT_ERROR"
  · rw [if_pos hm]
    unfold surfacedMessage
    rw [if_pos hm]
    rfl
  · rw [if_neg hm]
    unfold surfacedMessage
    rw [if_neg hm]
    rfl

theorem settleFailure_reqs_ne (s : AppState) (n : Nat) (q : Req) (msg : String) (m : Nat)
    (hm : m ≠ n) : (settleFailure s n q msg).reqs m = s.reqs m := by
  simp only [settleFailure]
  split_ifs <;> simp [finallyStep, abortAt, markDone, hm]

theorem settleFailure_reqs_self (s : AppState) (n : Nat) (q : Req) (msg : String) :
    (settleFailure s n q msg).reqs n = (markDone s n).reqs n ∨
    (settleFailure s n q msg).reqs n =
      ((markDone s n).reqs n).map (abortReq (some AbortReason.timeout)) := by
  simp only [settleFailure]
  split_ifs <;> first
    | exact Or.inl rfl
    | exact Or.inr (by simp [finallyStep, abortAt])

theorem settleStep_of_none (s : AppState) (n : Nat) (o : Outcome)
    (h : s.reqs n = none) : settleStep s n o = s := by
  unfold settleStep
  rw [h]

theorem settleStep_of_done (s : AppState) (n : Nat) (o : Outcome) (q : Req)
    (hq : s.reqs n = some q) (hd : q.done = true) : settleStep s n o = s := by
  unfold settleStep
  rw [hq]
  show (if q.done = true then s else
    match o with
    | Outcome.success v => settleSuccess s n q v
    | Outcome.failure msg => settleFailure s n q msg) = s
  rw [hd]
  rfl

theorem settleStep_live_success (s : AppState) (n : Nat) (q : Req) (v : AnalyzeValue)
    (hq : s.reqs n = some q) (hd : q.done = false) :
    settleStep s n (Outcome.success v) = settleSuccess s n q v := by
  unfold settleStep
  rw [hq]
  show (if q.done = true then s else settleSuccess s n q v) = settleSuccess s n q v
  rw [hd]
  rfl

theorem settleStep_live_failure (s : AppState) (n : Nat) (q : Req) (msg : String)
    (hq : s.reqs n = some q) (hd : q.done = false) :
    settleStep s n (Outcome.failure msg) = settleFailure s n q msg := by
  unfold settleStep
  rw [hq]
  show (if q.done = true then s else settleFailure s n q msg) = settleFailure s n q msg
  rw [hd]
  rfl

/-! ## Claim theorems about the External Analysis Client -/

/-- Claim C6: for every error whose text contains 429, quota or exhausted
anywhere, case-insensitively, the fallback generator returns the
quota-exceeded fallback payload, including its diagram text byte for byte. -/
theorem quota_fallback_on_quota_error (err : String)
    (h : (strIncludes (lowerS err) "429" || strIncludes (lowerS err) "quota" ||
          strIncludes (lowerS err) "exhausted") = true) :
    getFallbackResponse err = quotaFallback ∧
    quotaFallback.mermaidGraph = "graph TD;\n        Error[⛔ QUOTA EXCEEDED]:::error\n        Desc[API Limit Reached]:::base\n        Wait[Please wait a moment...]:::skip\n        Error --> Desc --> Wait\n        classDef error fill:#ef4444,stroke:#7f1d1d,stroke-width:2px,color:#fff\n        classDef base fill:#1f2937,stroke:#374151,color:#fff\n        classDef skip fill:#374151,stroke:#4b5563,stroke-dasharray: 5 5,color:#9ca3af" :=
  ⟨getFallback_quota err h, rfl⟩

/-- Witness for C6 at the concrete error text Error: HTTP 429. -/
theorem quota_fallback_on_quota_error_witness :
    ((strIncludes (lowerS "Error: HTTP 429") "429" ||
      strIncludes (lowerS "Error: HTTP 429") "quota" ||
      strIncludes (lowerS "Error: HTTP 429") "exhausted") = true) ∧
    getFallbackResponse "Error: HTTP 429" = quotaFallback :=
  ⟨by decide, (quota_fallback_on_quota_error "Error: HTTP 429" (by decide)).1⟩

/-- Claim C8: cleanJsonString strips markdown code fences and extracts the
substring from the first opening brace to the last closing brace, on the two
example inputs of the specification. -/
theorem cleanJsonString_examples :
    cleanJsonString "```json\n\x7b\"a\":1\x7d\n```" = "\x7b\"a\":1\x7d" ∧
    cleanJsonString "noise\x7b\"a\":1\x7dnoise" = "\x7b\"a\":1\x7d" :=
  ⟨by decide, by decide⟩

/-- Claim C1: once the client is configured with a non-empty key, every error
input - an upstream failure of any kind, or a reply that cannot be parsed as
JSON - makes analyzeCodeWithGemini return a fully formed fallback payload:
the result is returned, never thrown, and all five fields are populated. -/
theorem analyze_never_throws_on_failure :
    (∀ key e ed, key ≠ "" →
      analyzeCodeWithGemini key (Except.error e) ed =
        Except.ok (AnalyzeValue.fallback (getFallbackResponse e)) ∧
      fieldsPopulated (getFallbackResponse e)) ∧
    (∀ key t ed, key ≠ "" → parseJson (cleanJsonString t) = none →
      analyzeCodeWithGemini key (Except.ok t) ed =
        Except.ok (AnalyzeValue.fallback (getFallbackResponse ("JSON Parse Error: " ++ ed))) ∧
      fieldsPopulated (getFallbackResponse ("JSON Parse Error: " ++ ed))) := by
  constructor
  · intro key e ed hk
    refine ⟨?_, getFallback_fieldsPopulated e⟩
    unfold analyzeCodeWithGemini
    rw [if_neg hk]
  · intro key t ed hk hp
    refine ⟨?_, getFallback_fieldsPopulated _⟩
    unfold analyzeCodeWithGemini
    rw [if_neg hk]
    simp only [hp]

/-- Witness for C1 at a concrete upstream failure and a concrete unparseable
reply. -/
theorem analyze_never_throws_on_failure_witness :
    (("k" : String) ≠ "" ∧ parseJson (cleanJsonString "nope") = none) ∧
    (analyzeCodeWithGemini "k" (Except.error "boom") "" =
        Except.ok (AnalyzeValue.fallback (getFallbackResponse "boom")) ∧
      fieldsPopulated (getFallbackResponse "boom")) ∧
    (analyzeCodeWithGemini "k" (Except.ok "nope") "SyntaxError" =
        Except.ok (AnalyzeValue.fallback (getFallbackResponse ("JSON Parse Error: " ++ "SyntaxError"))) ∧
      fieldsPopulated (getFallbackResponse ("JSON Parse Error: " ++ "SyntaxError"))) :=
  ⟨⟨by decide, rfl⟩,
    analyze_never_throws_on_failure.1 "k" "boom" "" (by decide),
    analyze_never_throws_on_failure.2 "k" "nope" "SyntaxError" (by decide) rfl⟩

/-- Claim C7: a reply that cannot be parsed as JSON yields the
malformed-response fallback, not the generic fallback. The thrown message
always starts with the prefix JSON Parse Error and therefore matches the json
keyword test; the quota test is checked first in the source, so the statement
assumes the engine-supplied detail text does not mention the quota keywords. -/
theorem malformed_reply_parse_fallback (key t ed : String) (hk : key ≠ "")
    (hp : parseJson (cleanJsonString t) = none)
    (h429 : strIncludes (lowerS ("JSON Parse Error: " ++ ed)) "429" = false)
    (hquo : strIncludes (lowerS ("JSON Parse Error: " ++ ed)) "quota" = false)
    (hexh : strIncludes (lowerS ("JSON Parse Error: " ++ ed)) "exhausted" = false) :
    analyzeCodeWithGemini key (Except.ok t) ed =
      Except.ok (AnalyzeValue.fallback parseErrorFallback) ∧
    parseErrorFallback ≠ genericFallback (lowerS ("JSON Parse Error: " ++ ed)) := by
  constructor
  · have hj : strIncludes (lowerS ("JSON Parse Error: " ++ ed)) "json" = true :=
      strIncludes_lowerS_append "JSON Parse Error: " ed "json" (by decide)
    have hfb := getFallback_parse ("JSON Parse Error: " ++ ed)
      (by rw [h429, hquo, hexh]; rfl) (by rw [hj]; rfl)
    unfold analyzeCodeWithGemini
    rw [if_neg hk]
    simp only [hp, hfb]
  · intro h
    have h2 : ("?" : String) = "O(High)" := congrArg SimulationResponse.timeComplexity h
    exact absurd h2 (by decide)

/-- Witness for C7 at a concrete unparseable reply and a concrete engine
detail text. -/
theorem malformed_reply_parse_fallback_witness :
    (("k" : String) ≠ "" ∧ parseJson (cleanJsonString "nope") = none ∧
      strIncludes (lowerS ("JSON Parse Error: " ++ "SyntaxError: Unexpected token")) "429" = false) ∧
    (analyzeCodeWithGemini "k" (Except.ok "nope") "SyntaxError: Unexpected token" =
        Except.ok (AnalyzeValue.fallback parseErrorFallback) ∧
      parseErrorFallback ≠
        genericFallback (lowerS ("JSON Parse Error: " ++ "SyntaxError: Unexpected token"))) :=
  ⟨⟨by decide, rfl, by decide⟩,
    malformed_reply_parse_fallback "k" "nope" "SyntaxError: Unexpected token"
      (by decide) rfl (by decide) (by decide) (by decide)⟩

/-- Counterexample to Claim C5 as stated: with a configured key, feeding the
client the syntactically valid reply consisting of an empty JSON object makes
analyze return successfully, yet the returned value carries none of the five
payload fields (the source returns the parse result under an unchecked cast
and never validates the fields), and no error is yielded either. -/
theorem analyze_missing_fields_cex :
    ¬ ((∃ v, analyzeCodeWithGemini "k" (Except.ok "\x7b\x7d") "" = Except.ok v ∧
          hasAllFields v = true) ∨
       (∃ m, analyzeCodeWithGemini "k" (Except.ok "\x7b\x7d") "" = Except.error m)) := by
  have hcomp : analyzeCodeWithGemini "k" (Except.ok "\x7b\x7d") "" =
      Except.ok (AnalyzeValue.parsed (Json.obj [])) := rfl
  rintro (⟨v, hv, hf⟩ | ⟨m, hm⟩)
  · rw [hcomp] at hv
    injection hv with hv2
    rw [← hv2] at hf
    exact absurd hf (by decide)
  · rw [hcomp] at hm
    exact Except.noConfusion hm

/-- Claim C5 (amended): with a configured key, analyze either returns a
fallback payload with all five fields populated, or returns the object parsed
from the reply, whose fields are exactly those the reply contained (the source
does not validate them); and every rejection a live request delivers to the
orchestrator is surfaced as exactly one message, classified as timeout for the
timer rejection and as the unexpected catch-all otherwise - never left as an
unhandled raw upstream error. -/
theorem analyze_outcomes (key : String) (up : Except String String) (ed : String)
    (hk : key ≠ "") :
    ((∃ m, analyzeCodeWithGemini key up ed =
        Except.ok (AnalyzeValue.fallback (getFallbackResponse m)) ∧
        fieldsPopulated (getFallbackResponse m)) ∨
     (∃ j, analyzeCodeWithGemini key up ed = Except.ok (AnalyzeValue.parsed j))) ∧
    (∀ msg, errCategory msg = ErrCategory.timeout ∨ errCategory msg = ErrCategory.unexpected) ∧
    (∀ s n q msg, s.reqs n = some q → q.aborted = false → q.done = false →
      (step s (Event.settle n (Outcome.failure msg))).error = some (surfacedMessage msg)) := by
  refine ⟨?_, ?_, ?_⟩
  · cases up with
    | error e =>
      refine Or.inl ⟨e, ?_, getFallback_fieldsPopulated e⟩
      unfold analyzeCodeWithGemini
      rw [if_neg hk]
    | ok t =>
      cases hp : parseJson (cleanJsonString t) with
      | none =>
        refine Or.inl ⟨"JSON Parse Error: " ++ ed, ?_, getFallback_fieldsPopulated _⟩
        unfold analyzeCodeWithGemini
        rw [if_neg hk]
        simp only [hp]
      | some j =>
        refine Or.inr ⟨j, ?_⟩
        unfold analyzeCodeWithGemini
        rw [if_neg hk]
        simp only [hp]
  · intro msg
    unfold errCategory
    by_cases hm : msg = "TIMEOUT_ERROR"
    · rw [if_pos hm]; exact Or.inl rfl
    · rw [if_neg hm]; exact Or.inr rfl
  · intro s n q msg hq ha hd
    show (settleStep s n (Outcome.failure msg)).error = some (surfacedMessage msg)
    rw [settleStep_live_failure s n q msg hq hd]
    exact settleFailure_live_error s n q msg ha

/-- Witness for amended C5 at a concrete key and upstream failure. -/
theorem analyze_outcomes_witness :
    (("k" : String) ≠ "") ∧
    (((∃ m, analyzeCodeWithGemini "k" (Except.error "boom") "" =
          Except.ok (AnalyzeValue.fallback (getFallbackResponse m)) ∧
          fieldsPopulated (getFallbackResponse m)) ∨
      (∃ j, analyzeCodeWithGemini "k" (Except.error "boom") "" =
          Except.ok (AnalyzeValue.parsed j))) ∧
     (∀ msg, errCategory msg = ErrCategory.timeout ∨ errCategory msg = ErrCategory.unexpected) ∧
     (∀ s n q msg, s.reqs n = some q → q.aborted = false → q.done = false →
       (step s (Event.settle n (Outcome.failure msg))).error = some (surfacedMessage msg))) :=
  ⟨by decide, analyze_outcomes "k" (Except.error "boom") "" (by decide)⟩

/-! ## Claim theorems about the Diagram Renderer and Exporter -/

/-- Claim C9: for a drawing of known non-zero pixel dimensions, the raster
export canvas has dimensions width times 3 and height times 3 and triggers
exactly one PNG download; when rasterization throws the content-origin
(tainted canvas) security error, the vector fallback download runs exactly
once and no raster download happens. -/
theorem export_dimensions_and_fallback (w h : ℚ) (hw : w ≠ 0) (hh : h ≠ 0) :
    handleDownload true w h (ImgLoad.loads RasterResult.ok) =
      ⟨some (w * 3, h * 3), 1, 0⟩ ∧
    handleDownload true w h (ImgLoad.loads RasterResult.taintedError) =
      ⟨some (w * 3, h * 3), 0, 1⟩ := by
  constructor <;>
    simp [handleDownload, hw, hh]

/-- Witness for C9 at the concrete dimensions 400 by 300. -/
theorem export_dimensions_and_fallback_witness :
    ((400 : ℚ) ≠ 0 ∧ (300 : ℚ) ≠ 0) ∧
    (handleDownload true 400 300 (ImgLoad.loads RasterResult.ok) =
        ⟨some (400 * 3, 300 * 3), 1, 0⟩ ∧
      handleDownload true 400 300 (ImgLoad.loads RasterResult.taintedError) =
        ⟨some (400 * 3, 300 * 3), 0, 1⟩) :=
  ⟨⟨by norm_num, by norm_num⟩,
    export_dimensions_and_fallback 400 300 (by norm_num) (by norm_num)⟩

/-- The zoom level stays at or above one half along any run started at or
above one half. -/
theorem zoomRun_lower_bound (es : List ZoomEvent) :
    ∀ z : ℚ, 1 / 2 ≤ z → 1 / 2 ≤ es.foldl zoomStep z := by
  induction es with
  | nil => intro z hz; exact hz
  | cons e es ih =>
    intro z hz
    apply ih
    cases e
    · show (1 : ℚ) / 2 ≤ z + 1 / 10
      linarith
    · exact le_max_left _ _
    · show (1 : ℚ) / 2 ≤ 1
      norm_num
    · show (1 : ℚ) / 2 ≤ 1
      norm_num
    · exact hz

/-- Claim C10: starting from the initial zoom level 1, no sequence of
zoom-in, zoom-out, reset and render operations ever takes the zoom level
below one half; zoom-out clamps at one half, and reset and a successful new
chart render both set the level back to 1. -/
theorem zoom_never_below_half :
    (∀ es, 1 / 2 ≤ zoomRun es) ∧
    (∀ z : ℚ, zoomStep z ZoomEvent.zoomOut = max (1 / 2) (z - 1 / 10)) ∧
    (∀ z : ℚ, zoomStep z ZoomEvent.reset = 1 ∧ zoomStep z ZoomEvent.renderOk = 1) :=
  ⟨fun es => zoomRun_lower_bound es 1 (by norm_num),
   fun _ => rfl,
   fun _ => ⟨rfl, rfl⟩⟩


/-! ## Step-level lemmas for the orchestrator -/

theorem beginRequest_reqs (s1 : AppState) (c : Option String) (m : Nat) :
    (beginRequest s1 c).reqs m =
      if m = s1.nextId then some ⟨false, none, false, c⟩ else s1.reqs m := rfl

theorem beginRequest_current (s1 : AppState) (c : Option String) :
    (beginRequest s1 c).current = some s1.nextId := rfl

theorem beginRequest_nextId (s1 : AppState) (c : Option String) :
    (beginRequest s1 c).nextId = s1.nextId + 1 := rfl

theorem abortCurrent_of_none (s : AppState) (r : Option AbortReason)
    (hc : s.current = none) : abortCurrent s r = s := by
  unfold abortCurrent
  rw [hc]

theorem abortCurrent_of_some (s : AppState) (r : Option AbortReason) (k : Nat)
    (hc : s.current = some k) : abortCurrent s r = abortAt s k r := by
  unfold abortCurrent
  rw [hc]

theorem abortCurrent_nextId (s : AppState) (r : Option AbortReason) :
    (abortCurrent s r).nextId = s.nextId := by
  unfold abortCurrent
  cases hc : s.current <;> rfl

theorem abortCurrent_reqs_none (s : AppState) (r : Option AbortReason) (m : Nat)
    (h : s.reqs m = none) : (abortCurrent s r).reqs m = none := by
  unfold abortCurrent
  cases hc : s.current with
  | none => exact h
  | some k =>
    show (abortAt s k r).reqs m = none
    rw [abortAt_reqs]
    by_cases hk : m = k
    · rw [if_pos hk, h]
      rfl
    · rw [if_neg hk]
      exact h

theorem abortAt_req_mono (s : AppState) (k : Nat) (r : Option AbortReason) (n : Nat) (q : Req)
    (hq : s.reqs n = some q) :
    ∃ q', (abortAt s k r).reqs n = some q' ∧
      (q.aborted = true → q'.aborted = true ∧ q'.reason = q.reason) ∧
      (q.done = true → q'.done = true) := by
  by_cases hk : n = k
  · refine ⟨abortReq r q, ?_, ?_, ?_⟩
    · rw [abortAt_reqs, if_pos hk, hq, Option.map_some']
    · intro h
      rw [abortReq_of_aborted r q h]
      exact ⟨h, rfl⟩
    · intro h
      rw [abortReq_done]
      exact h
  · refine ⟨q, ?_, fun h => ⟨h, rfl⟩, fun h => h⟩
    rw [abortAt_reqs, if_neg hk]
    exact hq

theorem abortCurrent_req_mono (s : AppState) (r : Option AbortReason) (n : Nat) (q : Req)
    (hq : s.reqs n = some q) :
    ∃ q', (abortCurrent s r).reqs n = some q' ∧
      (q.aborted = true → q'.aborted = true ∧ q'.reason = q.reason) ∧
      (q.done = true → q'.done = true) := by
  cases hc : s.current with
  | none =>
    rw [abortCurrent_of_none s r hc]
    exact ⟨q, hq, fun h => ⟨h, rfl⟩, fun h => h⟩
  | some k =>
    rw [abortCurrent_of_some s r k hc]
    exact abortAt_req_mono s k r n q hq

theorem step_visualize_true (s : AppState) :
    step s (Event.visualize true) = beginRequest (abortCurrent s none) s.error := rfl

theorem step_visualize_false (s : AppState) :
    step s (Event.visualize false) = { s with error := some noNetMsg } := rfl

theorem step_stop_def (s : AppState) :
    step s Event.stop =
      { abortCurrent s (some AbortReason.stop) with current := none, isAnalyzing := false } := rfl

theorem step_offline_idle (s : AppState) (hi : s.isAnalyzing = false) :
    step s Event.offline = s := by
  show (if s.isAnalyzing = true then _ else s) = s
  rw [hi]
  rfl

theorem step_offline_active_none (s : AppState) (hi : s.isAnalyzing = true)
    (hc : s.current = none) : step s Event.offline = s := by
  show (if s.isAnalyzing = true then _ else s) = s
  rw [hi, if_pos rfl, hc]

theorem step_offline_active_some (s : AppState) (k : Nat) (hi : s.isAnalyzing = true)
    (hc : s.current = some k) :
    step s Event.offline =
      { abortAt s k (some AbortReason.offline) with
        isAnalyzing := false, error := some offlineHandlerMsg } := by
  show (if s.isAnalyzing = true then _ else s) = _
  rw [hi, if_pos rfl, hc]

theorem settleStep_current_eq (s : AppState) (n : Nat) (o : Outcome) :
    (settleStep s n o).current = s.current := by
  cases hq : s.reqs n with
  | none => rw [settleStep_of_none s n o hq]
  | some q =>
    by_cases hd : q.done = true
    · rw [settleStep_of_done s n o q hq hd]
    · rw [Bool.not_eq_true] at hd
      cases o with
      | success v =>
        rw [settleStep_live_success s n q v hq hd]
        exact settleSuccess_current s n q v
      | failure msg =>
        rw [settleStep_live_failure s n q msg hq hd]
        exact settleFailure_current s n q msg

theorem settleStep_nextId_eq (s : AppState) (n : Nat) (o : Outcome) :
    (settleStep s n o).nextId = s.nextId := by
  cases hq : s.reqs n with
  | none => rw [settleStep_of_none s n o hq]
  | some q =>
    by_cases hd : q.done = true
    · rw [settleStep_of_done s n o q hq hd]
    · rw [Bool.not_eq_true] at hd
      cases o with
      | success v =>
        rw [settleStep_live_success s n q v hq hd]
        exact settleSuccess_nextId s n q v
      | failure msg =>
        rw [settleStep_live_failure s n q msg hq hd]
        exact settleFailure_nextId s n q msg

theorem settleStep_reqs_ne (s : AppState) (n : Nat) (o : Outcome) (m : Nat)
    (hm : m ≠ n) : (settleStep s n o).reqs m = s.reqs m := by
  cases hq : s.reqs n with
  | none => rw [settleStep_of_none s n o hq]
  | some q =>
    by_cases hd : q.done = true
    · rw [settleStep_of_done s n o q hq hd]
    · rw [Bool.not_eq_true] at hd
      cases o with
      | success v =>
        rw [settleStep_live_success s n q v hq hd, settleSuccess_reqs, markDone_reqs,
          if_neg hm]
      | failure msg =>
        rw [settleStep_live_failure s n q msg hq hd]
        exact settleFailure_reqs_ne s n q msg m hm

theorem wf_init : WF initState := fun _ _ => rfl

theorem ocl_init : OnlyCurrentLive initState := fun _ _ hq _ => Option.noConfusion hq

theorem wf_step (s : AppState) (e : Event) (hwf : WF s) : WF (step s e) := by
  cases e with
  | visualize online =>
    cases online with
    | false => intro m hm; exact hwf m hm
    | true =>
      intro m hm
      have h1 : (step s (Event.visualize true)).nextId = s.nextId + 1 := by
        rw [step_visualize_true, beginRequest_nextId, abortCurrent_nextId]
      rw [h1] at hm
      rw [step_visualize_true, beginRequest_reqs, abortCurrent_nextId]
      rw [if_neg (by omega)]
      exact abortCurrent_reqs_none s none m (hwf m (by omega))
  | stop =>
    intro m hm
    have hm2 : s.nextId ≤ m := by
      have h1 : (step s Event.stop).nextId = s.nextId := abortCurrent_nextId s (some AbortReason.stop)
      rw [h1] at hm
      exact hm
    exact abortCurrent_reqs_none s (some AbortReason.stop) m (hwf m hm2)
  | offline =>
    by_cases hi : s.isAnalyzing = true
    · cases hc : s.current with
      | none => rw [step_offline_active_none s hi hc]; exact hwf
      | some k =>
        rw [step_offline_active_some s k hi hc]
        intro m hm
        have hm2 : s.nextId ≤ m := hm
        show (abortAt s k (some AbortReason.offline)).reqs m = none
        rw [abortAt_reqs]
        by_cases hk : m = k
        · rw [if_pos hk, hwf m hm2]
          rfl
        · rw [if_neg hk]
          exact hwf m hm2
    · rw [Bool.not_eq_true] at hi
      rw [step_offline_idle s hi]
      exact hwf
  | settle n o =>
    intro m hm
    have hnext : (step s (Event.settle n o)).nextId = s.nextId := settleStep_nextId_eq s n o
    rw [hnext] at hm
    by_cases hmn : m = n
    · subst hmn
      have hstep : step s (Event.settle m o) = s := settleStep_of_none s m o (hwf m hm)
      rw [hstep]
      exact hwf m hm
    · have hne : (step s (Event.settle n o)).reqs m = s.reqs m := settleStep_reqs_ne s n o m hmn
      rw [hne]
      exact hwf m hm

theorem wf_run (evs : List Event) : ∀ s, WF s → WF (run s evs) := by
  induction evs with
  | nil => intro s h; exact h
  | cons e evs ih => intro s h; exact ih (step s e) (wf_step s e h)

theorem step_req_mono (s : AppState) (e : Event) (n : Nat) (q : Req)
    (hwf : WF s) (hq : s.reqs n = some q) :
    ∃ q', (step s e).reqs n = some q' ∧
      (q.aborted = true → q'.aborted = true ∧ q'.reason = q.reason) ∧
      (q.done = true → q'.done = true) := by
  have hn : n < s.nextId := by
    by_contra hcon
    rw [hwf n (Nat.le_of_not_lt hcon)] at hq
    exact Option.noConfusion hq
  cases e with
  | visualize online =>
    cases online with
    | false => exact ⟨q, hq, fun h => ⟨h, rfl⟩, fun h => h⟩
    | true =>
      have h1 : (step s (Event.visualize true)).reqs n = (abortCurrent s none).reqs n := by
        rw [step_visualize_true, beginRequest_reqs, abortCurrent_nextId, if_neg (by omega)]
      rw [h1]
      exact abortCurrent_req_mono s none n q hq
  | stop =>
    exact abortCurrent_req_mono s (some AbortReason.stop) n q hq
  | offline =>
    by_cases hi : s.isAnalyzing = true
    · cases hc : s.current with
      | none =>
        rw [step_offline_active_none s hi hc]
        exact ⟨q, hq, fun h => ⟨h, rfl⟩, fun h => h⟩
      | some k =>
        rw [step_offline_active_some s k hi hc]
        exact abortAt_req_mono s k (some AbortReason.offline) n q hq
    · rw [Bool.not_eq_true] at hi
      rw [step_offline_idle s hi]
      exact ⟨q, hq, fun h => ⟨h, rfl⟩, fun h => h⟩
  | settle k o =>
    by_cases hkn : n = k
    · subst hkn
      by_cases hd : q.done = true
      · have hstep : step s (Event.settle n o) = s := settleStep_of_done s n o q hq hd
        rw [hstep]
        exact ⟨q, hq, fun h => ⟨h, rfl⟩, fun h => h⟩
      · rw [Bool.not_eq_true] at hd
        cases o with
        | success v =>
          have hstep : step s (Event.settle n (Outcome.success v)) = settleSuccess s n q v :=
            settleStep_live_success s n q v hq hd
          refine ⟨{ q with done := true }, ?_, fun h => ⟨h, rfl⟩, fun _ => rfl⟩
          rw [hstep, settleSuccess_reqs, markDone_reqs, if_pos rfl, hq, Option.map_some']
        | failure msg =>
          have hstep : step s (Event.settle n (Outcome.failure msg)) = settleFailure s n q msg :=
            settleStep_live_failure s n q msg hq hd
          rw [hstep]
          rcases settleFailure_reqs_self s n q msg with h | h
          · refine ⟨{ q with done := true }, ?_, fun hh => ⟨hh, rfl⟩, fun _ => rfl⟩
            rw [h, markDone_reqs, if_pos rfl, hq, Option.map_some']
          · refine ⟨abortReq (some AbortReason.timeout) { q with done := true }, ?_, ?_, ?_⟩
            · rw [h, markDone_reqs, if_pos rfl, hq, Option.map_some', Option.map_some']
            · intro hh
              have heq : abortReq (some AbortReason.timeout) { q with done := true } =
                  { q with done := true } := abortReq_of_aborted _ _ hh
              rw [heq]
              exact ⟨hh, rfl⟩
            · intro _
              rw [abortReq_done]
    · have hne : (step s (Event.settle k o)).reqs n = s.reqs n := settleStep_reqs_ne s k o n hkn
      rw [hne]
      exact ⟨q, hq, fun h => ⟨h, rfl⟩, fun h => h⟩

theorem run_req_mono (evs : List Event) : ∀ s n q, WF s → s.reqs n = some q →
    ∃ q', (run s evs).reqs n = some q' ∧
      (q.aborted = true → q'.aborted = true ∧ q'.reason = q.reason) ∧
      (q.done = true → q'.done = true) := by
  induction evs with
  | nil => intro s n q _ hq; exact ⟨q, hq, fun h => ⟨h, rfl⟩, fun h => h⟩
  | cons e evs ih =>
    intro s n q hwf hq
    obtain ⟨q1, hq1, hab1, hd1⟩ := step_req_mono s e n q hwf hq
    obtain ⟨q2, hq2, hab2, hd2⟩ := ih (step s e) n q1 (wf_step s e hwf) hq1
    refine ⟨q2, hq2, ?_, fun h => hd2 (hd1 h)⟩
    intro h
    obtain ⟨h1a, h1r⟩ := hab1 h
    obtain ⟨h2a, h2r⟩ := hab2 h1a
    exact ⟨h2a, h2r.trans h1r⟩

theorem ocl_step (s : AppState) (e : Event) (_hwf : WF s) (h : OnlyCurrentLive s) :
    OnlyCurrentLive (step s e) := by
  cases e with
  | visualize online =>
    cases online with
    | false => intro n q hq hab; exact h n q hq hab
    | true =>
      intro n q' hq' hab
      rw [step_visualize_true] at hq'
      rw [step_visualize_true, beginRequest_current, abortCurrent_nextId]
      rw [beginRequest_reqs, abortCurrent_nextId] at hq'
      by_cases hn : n = s.nextId
      · rw [hn]
      · rw [if_neg hn] at hq'
        exfalso
        cases hc : s.current with
        | none =>
          rw [abortCurrent_of_none s none hc] at hq'
          have hcur := h n q' hq' hab
          rw [hc] at hcur
          exact Option.noConfusion hcur
        | some k =>
          rw [abortCurrent_of_some s none k hc, abortAt_reqs] at hq'
          by_cases hk : n = k
          · rw [if_pos hk] at hq'
            cases hq0 : s.reqs n with
            | none => rw [hq0] at hq'; exact Option.noConfusion hq'
            | some q0 =>
              rw [hq0, Option.map_some'] at hq'
              injection hq' with he
              rw [← he, abortReq_aborted] at hab
              exact Bool.noConfusion hab
          · rw [if_neg hk] at hq'
            have hcur := h n q' hq' hab
            rw [hc] at hcur
            injection hcur with he
            exact hk he.symm
  | stop =>
    intro n q' hq' hab
    exfalso
    have hq2 : (abortCurrent s (some AbortReason.stop)).reqs n = some q' := hq'
    cases hc : s.current with
    | none =>
      rw [abortCurrent_of_none s _ hc] at hq2
      have hcur := h n q' hq2 hab
      rw [hc] at hcur
      exact Option.noConfusion hcur
    | some k =>
      rw [abortCurrent_of_some s _ k hc, abortAt_reqs] at hq2
      by_cases hk : n = k
      · rw [if_pos hk] at hq2
        cases hq0 : s.reqs n with
        | none => rw [hq0] at hq2; exact Option.noConfusion hq2
        | some q0 =>
          rw [hq0, Option.map_some'] at hq2
          injection hq2 with he
          rw [← he, abortReq_aborted] at hab
          exact Bool.noConfusion hab
      · rw [if_neg hk] at hq2
        have hcur := h n q' hq2 hab
        rw [hc] at hcur
        injection hcur with he
        exact hk he.symm
  | offline =>
    by_cases hi : s.isAnalyzing = true
    · cases hc : s.current with
      | none => rw [step_offline_active_none s hi hc]; exact h
      | some k =>
        intro n q' hq' hab
        rw [step_offline_active_some s k hi hc] at hq'
        have hq2 : (abortAt s k (some AbortReason.offline)).reqs n = some q' := hq'
        rw [abortAt_reqs] at hq2
        rw [step_offline_active_some s k hi hc]
        by_cases hk : n = k
        · exfalso
          rw [if_pos hk] at hq2
          cases hq0 : s.reqs n with
          | none => rw [hq0] at hq2; exact Option.noConfusion hq2
          | some q0 =>
            rw [hq0, Option.map_some'] at hq2
            injection hq2 with he
            rw [← he, abortReq_aborted] at hab
            exact Bool.noConfusion hab
        · rw [if_neg hk] at hq2
          exact h n q' hq2 hab
    · rw [Bool.not_eq_true] at hi
      rw [step_offline_idle s hi]
      exact h
  | settle k o =>
    intro n q' hq' hab
    have hcur : (step s (Event.settle k o)).current = s.current := settleStep_current_eq s k o
    rw [hcur]
    by_cases hkn : n = k
    · subst hkn
      cases hq0 : s.reqs n with
      | none =>
        have hstep : step s (Event.settle n o) = s := settleStep_of_none s n o hq0
        rw [hstep] at hq'
        exact h n q' hq' hab
      | some q0 =>
        by_cases hd : q0.done = true
        · have hstep : step s (Event.settle n o) = s := settleStep_of_done s n o q0 hq0 hd
          rw [hstep] at hq'
          exact h n q' hq' hab
        · rw [Bool.not_eq_true] at hd
          cases o with
          | success v =>
            have hstep : step s (Event.settle n (Outcome.success v)) = settleSuccess s n q0 v :=
              settleStep_live_success s n q0 v hq0 hd
            rw [hstep, settleSuccess_reqs, markDone_reqs, if_pos rfl, hq0,
              Option.map_some'] at hq'
            injection hq' with he
            rw [← he] at hab
            exact h n q0 hq0 hab
          | failure msg =>
            have hstep : step s (Event.settle n (Outcome.failure msg)) = settleFailure s n q0 msg :=
              settleStep_live_failure s n q0 msg hq0 hd
            rw [hstep] at hq'
            rcases settleFailure_reqs_self s n q0 msg with hr | hr
            · rw [hr, markDone_reqs, if_pos rfl, hq0, Option.map_some'] at hq'
              injection hq' with he
              rw [← he] at hab
              exact h n q0 hq0 hab
            · rw [hr, markDone_reqs, if_pos rfl, hq0, Option.map_some', Option.map_some'] at hq'
              injection hq' with he
              rw [← he, abortReq_aborted] at hab
              exact Bool.noConfusion hab
    · have hne : (step s (Event.settle k o)).reqs n = s.reqs n := settleStep_reqs_ne s k o n hkn
      rw [hne] at hq'
      exact h n q' hq' hab

theorem ocl_run (evs : List Event) : ∀ s, WF s → OnlyCurrentLive s →
    OnlyCurrentLive (run s evs) := by
  induction evs with
  | nil => intro s _ h; exact h
  | cons e evs ih => intro s hwf h; exact ih (step s e) (wf_step s e hwf) (ocl_step s e hwf h)

theorem settle_data_change (s : AppState) (n : Nat) (o : Outcome)
    (hch : (step s (Event.settle n o)).simulationData ≠ s.simulationData) :
    ∃ q, s.reqs n = some q ∧ q.aborted = false ∧ q.done = false := by
  cases hq : s.reqs n with
  | none =>
    exact absurd (by rw [show step s (Event.settle n o) = s from settleStep_of_none s n o hq])
      hch
  | some q =>
    by_cases hd : q.done = true
    · exact absurd
        (by rw [show step s (Event.settle n o) = s from settleStep_of_done s n o q hq hd]) hch
    · rw [Bool.not_eq_true] at hd
      by_cases ha : q.aborted = true
      · exfalso
        cases o with
        | success v =>
          have hstep : step s (Event.settle n (Outcome.success v)) = settleSuccess s n q v :=
            settleStep_live_success s n q v hq hd
          exact hch (by rw [hstep]; exact settleSuccess_data_of_aborted s n q v ha)
        | failure msg =>
          have hstep : step s (Event.settle n (Outcome.failure msg)) = settleFailure s n q msg :=
            settleStep_live_failure s n q msg hq hd
          exact hch (by rw [hstep]; exact settleFailure_simulationData s n q msg)
      · rw [Bool.not_eq_true] at ha
        exact ⟨q, rfl, ha, hd⟩

theorem settleStep_stopped_no_mut (t : AppState) (n : Nat) (o : Outcome) (q : Req)
    (hq : t.reqs n = some q) (ha : q.aborted = true) (hr : q.reason = some AbortReason.stop) :
    (settleStep t n o).simulationData = t.simulationData ∧
    (settleStep t n o).error = t.error := by
  by_cases hd : q.done = true
  · rw [settleStep_of_done t n o q hq hd]
    exact ⟨rfl, rfl⟩
  · rw [Bool.not_eq_true] at hd
    cases o with
    | success v =>
      rw [settleStep_live_success t n q v hq hd]
      exact ⟨settleSuccess_data_of_aborted t n q v ha, settleSuccess_error t n q v⟩
    | failure msg =>
      rw [settleStep_live_failure t n q msg hq hd]
      exact ⟨settleFailure_simulationData t n q msg, settleFailure_error_stopped t n q msg ha hr⟩

theorem settleFailure_timeout_reqs (s : AppState) (n : Nat) (q : Req)
    (ha : q.aborted = false) :
    (settleFailure s n q "TIMEOUT_ERROR").reqs n =
      ((markDone s n).reqs n).map (abortReq (some AbortReason.timeout)) := by
  simp only [settleFailure]
  rw [if_neg (by rw [ha]; rintro hcon; exact Bool.false_ne_true hcon.1)]
  rw [if_neg (by rw [ha]; rintro hcon; exact Bool.false_ne_true hcon.1)]
  rw [if_pos trivial]
  simp [finallyStep, abortAt]

/-! ## Claim theorems about the Request Orchestrator -/

/-- Counterexample to Claim C2 as stated: after a second Visualize supersedes
the first request (its controller aborted with no reason recorded), the first
request is still pending; when its promise then rejects with an ordinary
error, the catch branch falls through the stop and offline reason checks and
overwrites the error state that the second, live request had cleared. -/
theorem stale_request_overwrites_error_cex :
    (run initState [Event.visualize true, Event.visualize true]).error = none ∧
    (run initState [Event.visualize true, Event.visualize true]).current = some 1 ∧
    (∃ q, (run initState [Event.visualize true, Event.visualize true]).reqs 0 = some q ∧
      q.aborted = true ∧ q.done = false) ∧
    (step (run initState [Event.visualize true, Event.visualize true])
        (Event.settle 0 (Outcome.failure "boom"))).error = some "boom" :=
  ⟨rfl, rfl, ⟨⟨true, none, false, none⟩, rfl, rfl, rfl⟩, rfl⟩

/-- Claim C2 (amended): starting a second analysis while one is outstanding
aborts the controller of the first request, and a settling request commits a
result only while it is still the current handle: the first request can never
overwrite the result state of its successor. (The error state is excluded:
as the counterexample shows, a rejection of the superseded request still
overwrites it, because the catch branch only recognizes the stop and offline
abort reasons.) -/
theorem supersede_cancels_and_only_current_commits :
    (∀ evs n q, (run initState evs).current = some n →
      (run initState evs).reqs n = some q →
      ∃ q', (step (run initState evs) (Event.visualize true)).reqs n = some q' ∧
        q'.aborted = true) ∧
    (∀ evs n o,
      (step (run initState evs) (Event.settle n o)).simulationData ≠
        (run initState evs).simulationData →
      (run initState evs).current = some n) := by
  constructor
  · intro evs n q hcur hq
    have hwf : WF (run initState evs) := wf_run evs initState wf_init
    have hn : n < (run initState evs).nextId := by
      by_contra hcon
      rw [hwf n (Nat.le_of_not_lt hcon)] at hq
      exact Option.noConfusion hq
    refine ⟨abortReq none q, ?_, abortReq_aborted none q⟩
    rw [step_visualize_true, beginRequest_reqs, abortCurrent_nextId, if_neg (by omega)]
    rw [abortCurrent_of_some _ none n hcur, abortAt_reqs, if_pos rfl, hq, Option.map_some']
  · intro evs n o hch
    obtain ⟨q, hq, ha, _⟩ := settle_data_change (run initState evs) n o hch
    exact ocl_run evs initState wf_init ocl_init n q hq ha

/-- Witness for amended C2: a concrete first request is aborted by the second
Visualize, and a data-committing settlement implies being the current handle. -/
theorem supersede_cancels_witness :
    (∃ q', (step (run initState [Event.visualize true]) (Event.visualize true)).reqs 0 =
        some q' ∧ q'.aborted = true) ∧
    (run initState [Event.visualize true]).current = some 0 :=
  ⟨supersede_cancels_and_only_current_commits.1 [Event.visualize true] 0
      ⟨false, none, false, none⟩ rfl rfl,
   supersede_cancels_and_only_current_commits.2 [Event.visualize true] 0
      (Outcome.success (AnalyzeValue.parsed Json.null))
      (fun hcon => Option.noConfusion hcon)⟩

/-- Counterexample to Claim C3 as stated: when the offline listener has
already aborted the outstanding request with the offline reason, a later
stop() cannot re-abort the controller (the first abort wins); when the
request then rejects, the catch branch still matches the offline reason and
overwrites the error state after the stop. -/
theorem stop_after_offline_abort_cex :
    (step (run initState [Event.visualize true, Event.offline]) Event.stop).error =
      some offlineHandlerMsg ∧
    (step (step (run initState [Event.visualize true, Event.offline]) Event.stop)
        (Event.settle 0 (Outcome.failure "network down"))).error = some offlineCatchMsg ∧
    offlineHandlerMsg ≠ offlineCatchMsg :=
  ⟨rfl, rfl, by decide⟩

/-- Claim C3 (amended): handleStop clears the loading indicator synchronously
in every state; and when the outstanding request it cancels had not already
been aborted (in particular not by the offline listener), no later settlement
of that request mutates the result or error state, whatever happens in
between. -/
theorem stop_clears_loading_and_suppresses :
    (∀ s, (step s Event.stop).isAnalyzing = false) ∧
    (∀ evs n q, (run initState evs).current = some n →
      (run initState evs).reqs n = some q → q.aborted = false →
      ∀ evs2 o,
        (step (run (step (run initState evs) Event.stop) evs2)
            (Event.settle n o)).simulationData =
          (run (step (run initState evs) Event.stop) evs2).simulationData ∧
        (step (run (step (run initState evs) Event.stop) evs2)
            (Event.settle n o)).error =
          (run (step (run initState evs) Event.stop) evs2).error) := by
  constructor
  · intro s
    rfl
  · intro evs n q hcur hq hab evs2 o
    have hwf : WF (run initState evs) := wf_run evs initState wf_init
    have hstop : (step (run initState evs) Event.stop).reqs n =
        some { q with aborted := true, reason := some AbortReason.stop } := by
      have h2 : (step (run initState evs) Event.stop).reqs n =
          (abortCurrent (run initState evs) (some AbortReason.stop)).reqs n := rfl
      rw [h2, abortCurrent_of_some _ _ n hcur, abortAt_reqs, if_pos rfl, hq, Option.map_some',
        abortReq_of_not_aborted _ _ hab]
    have hwf2 : WF (step (run initState evs) Event.stop) := wf_step _ _ hwf
    obtain ⟨q', hq', habp, _⟩ :=
      run_req_mono evs2 (step (run initState evs) Event.stop) n _ hwf2 hstop
    obtain ⟨ha', hr'⟩ := habp rfl
    exact settleStep_stopped_no_mut _ n o q' hq' ha' hr'

/-- Witness for amended C3 at a concrete request stopped right after start. -/
theorem stop_clears_loading_witness :
    ((step (run initState [Event.visualize true]) Event.stop).isAnalyzing = false) ∧
    ((step (run (step (run initState [Event.visualize true]) Event.stop) [])
        (Event.settle 0 (Outcome.failure "late rejection"))).simulationData =
      (run (step (run initState [Event.visualize true]) Event.stop) []).simulationData ∧
     (step (run (step (run initState [Event.visualize true]) Event.stop) [])
        (Event.settle 0 (Outcome.failure "late rejection"))).error =
      (run (step (run initState [Event.visualize true]) Event.stop) []).error) :=
  ⟨stop_clears_loading_and_suppresses.1 (run initState [Event.visualize true]),
   stop_clears_loading_and_suppresses.2 [Event.visualize true] 0 ⟨false, none, false, none⟩
     rfl rfl rfl [] (Outcome.failure "late rejection")⟩

/-- Claim C4: when the timeout rejection wins the race for a live request,
the surfaced error is exactly the timeout message, the controller of the
request is aborted with the timeout reason, the result state is untouched,
and the request is finished: every later settlement of it, whatever happens
in between, changes nothing at all. -/
theorem timeout_surfaces_and_suppresses (evs : List Event) (n : Nat) (q : Req)
    (hq : (run initState evs).reqs n = some q) (hab : q.aborted = false)
    (hd : q.done = false) :
    (step (run initState evs) (Event.settle n (Outcome.failure "TIMEOUT_ERROR"))).error =
      some timeoutMsg ∧
    (∃ q', (step (run initState evs)
        (Event.settle n (Outcome.failure "TIMEOUT_ERROR"))).reqs n = some q' ∧
      q'.aborted = true ∧ q'.reason = some AbortReason.timeout ∧ q'.done = true) ∧
    (step (run initState evs)
        (Event.settle n (Outcome.failure "TIMEOUT_ERROR"))).simulationData =
      (run initState evs).simulationData ∧
    (∀ evs2 o,
      step (run (step (run initState evs)
            (Event.settle n (Outcome.failure "TIMEOUT_ERROR"))) evs2)
          (Event.settle n o) =
        run (step (run initState evs)
            (Event.settle n (Outcome.failure "TIMEOUT_ERROR"))) evs2) := by
  have hwf : WF (run initState evs) := wf_run evs initState wf_init
  have hstep : step (run initState evs) (Event.settle n (Outcome.failure "TIMEOUT_ERROR")) =
      settleFailure (run initState evs) n q "TIMEOUT_ERROR" :=
    settleStep_live_failure _ n q _ hq hd
  have hreq : (step (run initState evs)
      (Event.settle n (Outcome.failure "TIMEOUT_ERROR"))).reqs n =
      some (abortReq (some AbortReason.timeout) { q with done := true }) := by
    rw [hstep, settleFailure_timeout_reqs _ n q hab, markDone_reqs, if_pos rfl, hq,
      Option.map_some', Option.map_some']
  have habq : abortReq (some AbortReason.timeout) { q with done := true } =
      { q with done := true, aborted := true, reason := some AbortReason.timeout } := by
    rw [abortReq_of_not_aborted _ _
      (show ({ q with done := true } : Req).aborted = false from hab)]
  refine ⟨?_, ?_, ?_, ?_⟩
  · rw [hstep, settleFailure_live_error _ n q _ hab]
    rfl
  · refine ⟨_, hreq, ?_, ?_, ?_⟩
    · rw [habq]
    · rw [habq]
    · rw [habq]
  · rw [hstep]
    exact settleFailure_simulationData _ n q _
  · intro evs2 o
    have hwf2 : WF (step (run initState evs)
        (Event.settle n (Outcome.failure "TIMEOUT_ERROR"))) := wf_step _ _ hwf
    obtain ⟨q'', hq'', _, hdp⟩ := run_req_mono evs2 _ n _ hwf2 hreq
    have hdone : q''.done = true := hdp (by rw [habq])
    exact settleStep_of_done _ n o q'' hq'' hdone

/-- Witness for C4 at a concrete request started and then timed out. -/
theorem timeout_surfaces_witness :
    ((run initState [Event.visualize true]).reqs 0 = some ⟨false, none, false, none⟩) ∧
    ((step (run initState [Event.visualize true])
        (Event.settle 0 (Outcome.failure "TIMEOUT_ERROR"))).error = some timeoutMsg) ∧
    (step (run (step (run initState [Event.visualize true])
          (Event.settle 0 (Outcome.failure "TIMEOUT_ERROR"))) [])
        (Event.settle 0 (Outcome.success (AnalyzeValue.parsed Json.null))) =
      run (step (run initState [Event.visualize true])
          (Event.settle 0 (Outcome.failure "TIMEOUT_ERROR"))) []) :=
  ⟨rfl,
   (timeout_surfaces_and_suppresses [Event.visualize true] 0 ⟨false, none, false, none⟩
      rfl rfl rfl).1,
   (timeout_surfaces_and_suppresses [Event.visualize true] 0 ⟨false, none, false, none⟩
      rfl rfl rfl).2.2.2 [] (Outcome.success (AnalyzeValue.parsed Json.null))⟩
